import Mathlib

/-!
Shallow embedding of `semaphore.go` (package `semaphore`,
github.com/kamilsk/semaphore).

The Go implementation is a counting semaphore built on a buffered channel
`type semaphore chan struct{}`:

* `New(capacity int)` is `make(semaphore, capacity)`;
* `Acquire(ctx)` is a `select` racing the channel send `sem <- struct{}{}`
  against `<-ctx.Done()`;
* `Release()` is a non-blocking receive from the channel;
* `Capacity()` is `cap(sem)` and `Occupied()` is `len(sem)`.

The channel is modelled by its observable state: the pair of its capacity
(`cap`) and its current length (`len`), both natural numbers.  A channel
send is ready exactly when `len < cap`; a receive from the semaphore
channel is ready exactly when `0 < len`.  Go's `select` chooses uniformly
at random among the ready cases, so `Acquire` is modelled as a relation
admitting every outcome some execution of the `select` can produce, and it
relates no outcome when no case is ready (the goroutine blocks).
-/

namespace SemaphoreGo

/-- The two error values of `semaphore.go` (lines 50-51):
`errEmpty = errors.New("semaphore is empty")` and
`errTimeout = errors.New("operation timeout")`. -/
inductive SemError where
  | empty
  | timeout
deriving DecidableEq, Repr

/-- The message carried by each error value, as passed to `errors.New`. -/
def SemError.message : SemError → String
  | .empty => "semaphore is empty"
  | .timeout => "operation timeout"

/-- Observable state of the buffered channel `semaphore chan struct{}`:
`capacity` is `cap(sem)` (fixed by `make`), `occupied` is `len(sem)`. -/
structure Sem where
  capacity : Nat
  occupied : Nat
deriving DecidableEq, Repr

/-- `Capacity() int` — `return cap(sem)` (semaphore.go lines 65-67). -/
def Capacity (s : Sem) : Nat := s.capacity

/-- `Occupied() int` — `return len(sem)` (semaphore.go lines 69-71). -/
def Occupied (s : Sem) : Nat := s.occupied

/-- The channel freshly created by `make(semaphore, capacity)` for a
non-negative capacity: the given capacity and length 0. -/
def mkSem (capacity : Nat) : Sem := ⟨capacity, 0⟩

/-- `New(capacity int) Semaphore { return make(semaphore, capacity) }`
(semaphore.go lines 43-45).  In Go, `make` on a channel panics for a
negative size and never returns a channel, so the fallible construction is
embedded as `Option`: `none` is the panic, in which no object is produced. -/
def New (capacity : Int) : Option Sem :=
  if 0 ≤ capacity then some (mkSem capacity.toNat) else none

/-- `Release() error` (semaphore.go lines 73-80): a `select` with a
`default` case, i.e. a non-blocking receive.  The receive `<-sem` is ready
exactly when `len(sem) > 0`, in which case the length drops by one and
`nil` is returned; otherwise the `default` case returns `errEmpty`. -/
def Release (s : Sem) : Sem × Option SemError :=
  if 0 < s.occupied then (⟨s.capacity, s.occupied - 1⟩, none)
  else (s, some SemError.empty)

/-- `nothing ReleaseFunc = func() {}` (semaphore.go line 48): the no-op
release capability, as an effect on the semaphore state. -/
def nothing : Sem → Sem := fun s => s

/-- `releaser(releaser Releaser) ReleaseFunc { return func() { _ =
releaser.Release() } }` (semaphore.go lines 82-84): calls `Release` on the
captured semaphore and discards the error. -/
def releaser : Sem → Sem := fun s => (Release s).1

/-- Why a context's `Done` channel is closed.  `Acquire` never inspects
this: it only observes whether `<-ctx.Done()` is ready. -/
inductive CtxCause where
  | cancelled
  | deadlineZero
  | deadlineNegative
  | deadlineExceeded
deriving DecidableEq, Repr

/-- The cancellation signal passed to `Acquire`, observed at call time:
`done` is whether `ctx.Done()` is already closed, `cause` is why. -/
structure Ctx where
  done : Bool
  cause : CtxCause
deriving DecidableEq, Repr

/-- `Acquire(ctx context.Context) (ReleaseFunc, error)` (semaphore.go
lines 56-63):

```
select {
case sem <- struct{}{}:
    return releaser(sem), nil
case <-ctx.Done():
    return nothing, errTimeout
}
```

`Acquire ctx s t f e` holds when some execution of the `select` starting
from channel state `s` can finish in state `t` returning the capability
`f` and error `e`.  The send case is ready exactly when `len < cap`; the
`Done` case is ready exactly when the signal fired; when both are ready Go
picks one pseudo-randomly, so both constructors apply; when neither is
ready the call blocks and no outcome is related. -/
inductive Acquire (ctx : Ctx) (s : Sem) : Sem → (Sem → Sem) → Option SemError → Prop where
  | granted : s.occupied < s.capacity →
      Acquire ctx s ⟨s.capacity, s.occupied + 1⟩ releaser none
  | cancelled : ctx.done = true →
      Acquire ctx s s nothing (some SemError.timeout)

/-- One completed operation on the semaphore: an `Acquire` call that
returned (with any context), or a `Release` call. -/
inductive Step : Sem → Sem → Prop where
  | acq (ctx : Ctx) (f : Sem → Sem) (e : Option SemError) {s t : Sem} :
      Acquire ctx s t f e → Step s t
  | rel (e : Option SemError) {s t : Sem} : Release s = (t, e) → Step s t

/-- States reachable from a given state by a finite sequence of completed
`Acquire` and `Release` calls. -/
inductive Reachable : Sem → Sem → Prop where
  | refl (s : Sem) : Reachable s s
  | tail {s t u : Sem} : Reachable s t → Step t u → Reachable s u

/-- `Acquires ctx s n t`: starting from `s`, a sequence of `n` `Acquire`
calls with signal `ctx` each succeeded (returned the `releaser` capability
and no error), ending in state `t`. -/
inductive Acquires (ctx : Ctx) : Sem → Nat → Sem → Prop where
  | zero (s : Sem) : Acquires ctx s 0 s
  | succ {s t u : Sem} {n : Nat} : Acquires ctx s n t →
      Acquire ctx t u releaser none → Acquires ctx s (n + 1) u

/-! ### Helper lemmas -/

/-- A completed operation never changes the channel capacity. -/
theorem Step.preserves_capacity {s t : Sem} (h : Step s t) : t.capacity = s.capacity := by
  cases h with
  | acq ctx f e ha => cases ha <;> rfl
  | rel e hr =>
      unfold Release at hr
      split at hr <;> cases hr <;> rfl

/-- A completed operation preserves the channel bound `len ≤ cap`. -/
theorem Step.preserves_bound {s t : Sem} (h : Step s t)
    (hb : s.occupied ≤ s.capacity) : t.occupied ≤ t.capacity := by
  cases h with
  | acq ctx f e ha => cases ha with
    | granted hlt => exact hlt
    | cancelled _ => exact hb
  | rel e hr =>
      unfold Release at hr
      split at hr <;> cases hr
      · exact le_trans (Nat.sub_le _ _) hb
      · exact hb

/-- Capacity is constant along any reachable run. -/
theorem Reachable.fixes_capacity {s t : Sem} (h : Reachable s t) :
    t.capacity = s.capacity := by
  induction h with
  | refl => rfl
  | tail _ hstep ih => exact hstep.preserves_capacity.trans ih

/-- The channel bound `len ≤ cap` is inductive along any reachable run. -/
theorem Reachable.bounds_occupied {s t : Sem} (h : Reachable s t)
    (hb : s.occupied ≤ s.capacity) : t.occupied ≤ t.capacity := by
  induction h with
  | refl => exact hb
  | tail _ hstep ih => exact hstep.preserves_bound ih

/-- Inversion for `Acquire`: every outcome comes from exactly one of the
two `select` cases. -/
theorem Acquire.inv {ctx : Ctx} {s t : Sem} {f : Sem → Sem} {e : Option SemError}
    (h : Acquire ctx s t f e) :
    (s.occupied < s.capacity ∧ t = ⟨s.capacity, s.occupied + 1⟩ ∧
      f = releaser ∧ e = none) ∨
    (ctx.done = true ∧ t = s ∧ f = nothing ∧ e = some SemError.timeout) := by
  cases h with
  | granted hlt => exact Or.inl ⟨hlt, rfl, rfl, rfl⟩
  | cancelled hd => exact Or.inr ⟨hd, rfl, rfl, rfl⟩

/-! ### Claim theorems -/

/-- C1: whenever `Acquire` returns an error, that error is the
cancelled/timeout error, the semaphore state (hence `Occupied`) is
unchanged by the call, and the capability returned alongside the error is
the no-op `nothing`, whose invocation any number of times also leaves
occupancy unchanged. -/
theorem acquire_error_consumes_no_slot (ctx : Ctx) (s t : Sem) (f : Sem → Sem)
    (e : SemError) (h : Acquire ctx s t f (some e)) :
    e = SemError.timeout ∧ t = s ∧ Occupied t = Occupied s ∧ f = nothing ∧
      ∀ n : Nat, Occupied (f^[n] t) = Occupied s := by
  cases h with
  | cancelled hd =>
      refine ⟨rfl, rfl, rfl, rfl, fun n => ?_⟩
      have hid : nothing = id := rfl
      rw [hid, Function.iterate_id, id]

/-- Witness for C1 at a concrete cancelled call on a fresh semaphore. -/
theorem acquire_error_consumes_no_slot_witness :
    Occupied (nothing^[3] (mkSem 2)) = Occupied (mkSem 2) :=
  (acquire_error_consumes_no_slot ⟨true, CtxCause.cancelled⟩ (mkSem 2) (mkSem 2)
    nothing SemError.timeout (Acquire.cancelled rfl)).2.2.2.2 3

/-- C2: from a semaphore constructed with capacity `n`, every state
reachable under any sequence of `Acquire` and `Release` calls satisfies
`0 ≤ Occupied ≤ Capacity`. -/
theorem occupancy_bounds (n : Nat) (s : Sem) (h : Reachable (mkSem n) s) :
    0 ≤ Occupied s ∧ Occupied s ≤ Capacity s :=
  ⟨Nat.zero_le _, h.bounds_occupied (Nat.zero_le _)⟩

/-- Witness for C2 at the state reached by one successful acquire on a
fresh capacity-2 semaphore. -/
theorem occupancy_bounds_witness :
    0 ≤ Occupied (⟨2, 1⟩ : Sem) ∧ Occupied (⟨2, 1⟩ : Sem) ≤ Capacity (⟨2, 1⟩ : Sem) :=
  occupancy_bounds 2 ⟨2, 1⟩
    ((Reachable.refl (mkSem 2)).tail
      (Step.acq ⟨false, CtxCause.cancelled⟩ releaser none
        (Acquire.granted (by decide))))

/-- C3: `Release` decrements occupancy by exactly 1 and returns no error
when occupied is positive; when occupied is 0 it returns the "semaphore is
empty" error and leaves the state unchanged; occupancy never goes negative
(it is a natural number) and never goes above capacity. -/
theorem release_spec (s : Sem) :
    (0 < Occupied s →
      Release s = (⟨Capacity s, Occupied s - 1⟩, none) ∧
      Occupied (Release s).1 + 1 = Occupied s) ∧
    (Occupied s = 0 → Release s = (s, some SemError.empty)) ∧
    0 ≤ Occupied (Release s).1 ∧
    (Occupied s ≤ Capacity s → Occupied (Release s).1 ≤ Capacity s) := by
  refine ⟨fun hpos => ?_, fun h0 => ?_, Nat.zero_le _, fun hle => ?_⟩
  · have hpos1 : 0 < s.occupied := hpos
    have heq : Release s = (⟨s.capacity, s.occupied - 1⟩, none) := by
      unfold Release
      rw [if_pos hpos1]
    refine ⟨heq, ?_⟩
    rw [heq]
    show s.occupied - 1 + 1 = s.occupied
    omega
  · unfold Release
    rw [if_neg]
    have h01 : s.occupied = 0 := h0
    omega
  · unfold Release
    split
    · show s.occupied - 1 ≤ s.capacity
      have hb : s.occupied ≤ s.capacity := hle
      omega
    · exact hle

/-- Witness for C3 on `⟨1, 1⟩` (success path) and `⟨1, 0⟩` (empty path). -/
theorem release_spec_witness :
    Release ⟨1, 1⟩ = (⟨1, 0⟩, none) ∧
      Release ⟨1, 0⟩ = (⟨1, 0⟩, some SemError.empty) ∧
      Occupied (Release ⟨1, 1⟩).1 ≤ Capacity (⟨1, 1⟩ : Sem) :=
  ⟨((release_spec ⟨1, 1⟩).1 (by decide)).1,
   (release_spec ⟨1, 0⟩).2.1 rfl,
   (release_spec ⟨1, 1⟩).2.2.2 (by decide)⟩

/-- C4: with a never-fired signal, on an empty semaphore of capacity `N`
the first `N` sequential `Acquire` calls all succeed, each is the only
possible outcome and raises occupancy by exactly 1 with no error, and any
run of `i ≤ N` successful acquires ends with occupancy exactly `i`, so
occupancy reaches `N` after `N` calls. -/
theorem linear_fill (N : Nat) (ctx : Ctx) (hc : ctx.done = false) :
    Acquires ctx (mkSem N) N ⟨N, N⟩ ∧
    (∀ i, i < N → ∀ t f e, Acquire ctx ⟨N, i⟩ t f e →
      t = ⟨N, i + 1⟩ ∧ f = releaser ∧ e = none) ∧
    (∀ i, i ≤ N → ∀ t, Acquires ctx (mkSem N) i t → t = ⟨N, i⟩) := by
  have key : ∀ i, i ≤ N → Acquires ctx (mkSem N) i ⟨N, i⟩ := by
    intro i
    induction i with
    | zero => intro _; exact Acquires.zero _
    | succ k ih =>
        intro hk
        have hlt : k < N := Nat.lt_of_succ_le hk
        exact (ih (Nat.le_of_lt hlt)).succ (Acquire.granted hlt)
  have uniq : ∀ i, i ≤ N → ∀ t, Acquires ctx (mkSem N) i t → t = ⟨N, i⟩ := by
    intro i
    induction i with
    | zero =>
        intro _ t ha
        cases ha
        rfl
    | succ k ih =>
        intro hk t ha
        cases ha with
        | succ hprev hacq =>
            rename_i t1
            have ht1 : t1 = ⟨N, k⟩ := ih (Nat.le_of_succ_le hk) t1 hprev
            subst ht1
            rcases hacq.inv with ⟨_, ht, _, _⟩ | ⟨_, _, _, habs⟩
            · exact ht
            · exact Option.noConfusion habs
  refine ⟨key N (Nat.le_refl N), ?_, uniq⟩
  intro i _ t f e h
  cases h with
  | granted _ => exact ⟨rfl, rfl, rfl⟩
  | cancelled hd => rw [hc] at hd; cases hd

/-- Witness for C4: two acquires fill a fresh capacity-2 semaphore. -/
theorem linear_fill_witness :
    Acquires ⟨false, CtxCause.cancelled⟩ (mkSem 2) 2 ⟨2, 2⟩ :=
  (linear_fill 2 ⟨false, CtxCause.cancelled⟩ rfl).1

/-- C5, counterexample to the claim as stated: with an already-fired
signal and a free slot, `Acquire` is not forced to return the cancellation
error — Go's `select` may pick the ready send case, granting the slot. -/
theorem cancelled_acquire_may_grant :
    ¬ (∀ (ctx : Ctx) (s t : Sem) (f : Sem → Sem) (e : Option SemError),
        ctx.done = true → Acquire ctx s t f e → e = some SemError.timeout) := by
  intro hclaim
  have hg : Acquire ⟨true, CtxCause.cancelled⟩ (mkSem 1) ⟨1, 1⟩ releaser none :=
    Acquire.granted (by decide)
  exact absurd (hclaim ⟨true, CtxCause.cancelled⟩ (mkSem 1) ⟨1, 1⟩ releaser none rfl hg)
    (by decide)

/-- C5 amended: with an already-fired signal, the cancellation outcome
(unchanged state, no-op capability, timeout error) is always among the
possible outcomes, and every possible outcome is either that cancellation
outcome or — only when a slot is free at call time — a successful grant. -/
theorem cancelled_acquire_spec (ctx : Ctx) (s t : Sem) (f : Sem → Sem)
    (e : Option SemError) (hd : ctx.done = true) :
    Acquire ctx s s nothing (some SemError.timeout) ∧
    (Acquire ctx s t f e →
      (t = s ∧ f = nothing ∧ e = some SemError.timeout) ∨
      (Occupied s < Capacity s ∧ t = ⟨Capacity s, Occupied s + 1⟩ ∧
        f = releaser ∧ e = none)) := by
  refine ⟨Acquire.cancelled hd, fun h => ?_⟩
  cases h with
  | granted hlt => exact Or.inr ⟨hlt, rfl, rfl, rfl⟩
  | cancelled _ => exact Or.inl ⟨rfl, rfl, rfl⟩

/-- Witness for the amended C5 at a concrete fired signal. -/
theorem cancelled_acquire_spec_witness :
    Acquire ⟨true, CtxCause.deadlineNegative⟩ (mkSem 0) (mkSem 0) nothing
      (some SemError.timeout) :=
  (cancelled_acquire_spec ⟨true, CtxCause.deadlineNegative⟩ (mkSem 0) (mkSem 0) nothing
    (some SemError.timeout) rfl).1

/-- C6: on a capacity-0 semaphore (any state reachable from construction),
occupancy is 0, an `Acquire` whose signal has fired returns the
cancellation error, and every possible outcome of such a call leaves the
state unchanged with occupancy 0, the no-op capability and the timeout
error — a grant is impossible. -/
theorem capacity_zero_cancel (s : Sem) (ctx : Ctx)
    (hr : Reachable (mkSem 0) s) (hd : ctx.done = true) :
    Occupied s = 0 ∧
    Acquire ctx s s nothing (some SemError.timeout) ∧
    ∀ t f e, Acquire ctx s t f e →
      t = s ∧ Occupied t = 0 ∧ f = nothing ∧ e = some SemError.timeout := by
  have hcap : s.capacity = 0 := hr.fixes_capacity
  have hocc : s.occupied = 0 := Nat.le_zero.mp (hcap ▸ hr.bounds_occupied (Nat.zero_le _))
  refine ⟨hocc, Acquire.cancelled hd, fun t f e h => ?_⟩
  cases h with
  | granted hlt => exact absurd hlt (by rw [hcap, hocc]; exact Nat.lt_irrefl 0)
  | cancelled _ => exact ⟨rfl, hocc, rfl, rfl⟩

/-- Witness for C6 at a fresh capacity-0 semaphore and a zero deadline. -/
theorem capacity_zero_cancel_witness :
    Occupied (mkSem 0) = 0 ∧
      Acquire ⟨true, CtxCause.deadlineZero⟩ (mkSem 0) (mkSem 0) nothing
        (some SemError.timeout) :=
  ⟨(capacity_zero_cancel (mkSem 0) ⟨true, CtxCause.deadlineZero⟩ (Reachable.refl _) rfl).1,
   (capacity_zero_cancel (mkSem 0) ⟨true, CtxCause.deadlineZero⟩ (Reachable.refl _) rfl).2.1⟩

/-- C7: after a successful `Acquire`, the returned capability is
`releaser`, which performs a `Release` and discards its error, and
invoking it immediately brings occupancy (indeed the whole state) back to
exactly its pre-acquire value. -/
theorem acquire_then_release_roundtrip (ctx : Ctx) (s t : Sem) (f : Sem → Sem)
    (h : Acquire ctx s t f none) :
    f = releaser ∧ (∀ u, f u = (Release u).1) ∧ f t = s ∧
      Occupied (f t) = Occupied s := by
  cases h with
  | granted hlt =>
      have hret : releaser (⟨s.capacity, s.occupied + 1⟩ : Sem) = s := by
        show (Release ⟨s.capacity, s.occupied + 1⟩).1 = s
        unfold Release
        rw [if_pos (Nat.succ_pos s.occupied)]
        rfl
      exact ⟨rfl, fun u => rfl, hret, by rw [hret]⟩

/-- Witness for C7: acquire then release on a fresh capacity-3 semaphore. -/
theorem acquire_then_release_roundtrip_witness :
    Occupied (releaser (⟨3, 1⟩ : Sem)) = Occupied (mkSem 3) :=
  (acquire_then_release_roundtrip ⟨false, CtxCause.cancelled⟩ (mkSem 3) ⟨3, 1⟩ releaser
    (Acquire.granted (by decide))).2.2.2

/-- C8: `Capacity` returns the capacity fixed at construction, and every
state reachable by any sequence of `Acquire` and `Release` calls still has
that capacity. -/
theorem capacity_immutable (n : Nat) (s : Sem) (h : Reachable (mkSem n) s) :
    Capacity (mkSem n) = n ∧ Capacity s = n :=
  ⟨rfl, h.fixes_capacity⟩

/-- Witness for C8 after one acquire and one release on capacity 2. -/
theorem capacity_immutable_witness : Capacity (⟨2, 0⟩ : Sem) = 2 :=
  (capacity_immutable 2 ⟨2, 0⟩
    (((Reachable.refl (mkSem 2)).tail
        (Step.acq ⟨false, CtxCause.cancelled⟩ releaser none
          (Acquire.granted (by decide)))).tail
      (Step.rel none (show Release ⟨2, 1⟩ = (⟨2, 0⟩, none) from rfl)))).2

/-- C9: `New` succeeds on every non-negative capacity, including 0,
producing a semaphore with exactly that capacity and occupancy 0, and
fails (the `make` panic, producing no object) exactly on negative
capacities. -/
theorem new_spec (c : Int) :
    (0 ≤ c → New c = some (mkSem c.toNat) ∧
      ∀ s, New c = some s → (Capacity s : Int) = c ∧ Occupied s = 0) ∧
    (c < 0 → New c = none) := by
  constructor
  · intro hc
    have hnew : New c = some (mkSem c.toNat) := by
      unfold New
      rw [if_pos hc]
    refine ⟨hnew, fun s hs => ?_⟩
    rw [hnew] at hs
    injection hs with hs
    subst hs
    refine ⟨?_, rfl⟩
    show ((c.toNat : Nat) : Int) = c
    omega
  · intro hneg
    unfold New
    rw [if_neg (by omega)]

/-- Witness for C9 at capacities 7 and -1. -/
theorem new_spec_witness : New 7 = some (mkSem 7) ∧ New (-1) = none :=
  ⟨((new_spec 7).1 (by decide)).1, (new_spec (-1)).2 (by decide)⟩

/-- C10: the outcomes of `Acquire` do not depend on the cause recorded in
the cancellation signal (explicit cancel and elapsed or zero deadlines are
indistinguishable), and every error it can return is the single value
`errTimeout` with message "operation timeout" — the signal's own error is
never propagated. -/
theorem timeout_error_uniform (d : Bool) (ca cb : CtxCause) (s t : Sem)
    (f : Sem → Sem) (e : Option SemError) :
    (Acquire ⟨d, ca⟩ s t f e ↔ Acquire ⟨d, cb⟩ s t f e) ∧
    (Acquire ⟨d, ca⟩ s t f e → ∀ err, e = some err →
      err = SemError.timeout ∧ SemError.message err = "operation timeout") := by
  constructor
  · constructor
    · intro h
      cases h with
      | granted hlt => exact Acquire.granted hlt
      | cancelled hd => exact Acquire.cancelled hd
    · intro h
      cases h with
      | granted hlt => exact Acquire.granted hlt
      | cancelled hd => exact Acquire.cancelled hd
  · intro h err he
    cases h with
    | granted _ => cases he
    | cancelled _ =>
        cases he
        exact ⟨rfl, rfl⟩

/-- Witness for C10 at a cancelled signal on a fresh semaphore. -/
theorem timeout_error_uniform_witness :
    SemError.message SemError.timeout = "operation timeout" :=
  ((timeout_error_uniform true CtxCause.cancelled CtxCause.deadlineExceeded (mkSem 0)
      (mkSem 0) nothing (some SemError.timeout)).2
    (Acquire.cancelled rfl) SemError.timeout rfl).2

end SemaphoreGo
